import Mathlib

/-!
Verification of the score-extraction, rubric, trend-fallback and round-loop
logic of the "Viral or Fail" CLI game (`viral_or_fail.py` and its helpers).

The Python code is shallowly embedded: strings are lists of characters,
regular-expression searches are modelled by explicit left-to-right scanning
functions with the same leftmost-match semantics, Python floats parsed from
decimal literals are modelled by their exact decimal value (`PyFloat`), and
Python's built-in `round` (round-half-to-even on the value) is `pyRound`.
Case-insensitive matching is modelled on ASCII letters, which covers every
label the extractor searches for.
-/

namespace ViralOrFail

/-- Code points Python's `str` regex class `\s` treats as whitespace. -/
def pySpaceCodes : List Nat :=
  [32, 9, 10, 13, 11, 12, 28, 29, 30, 31, 133, 160, 0x1680,
   0x2000, 0x2001, 0x2002, 0x2003, 0x2004, 0x2005, 0x2006, 0x2007,
   0x2008, 0x2009, 0x200a, 0x2028, 0x2029, 0x202f, 0x205f, 0x3000]

/-- Whether a character is whitespace for the embedded `\s*` sub-patterns. -/
def isPySpace (c : Char) : Bool := pySpaceCodes.contains c.toNat

/-- `text.replace("**", "")`: drop every (left-to-right, non-overlapping)
occurrence of two consecutive asterisks. First step of `extract_scores`. -/
def pyClean : List Char → List Char
  | '*' :: '*' :: rest => pyClean rest
  | c :: rest => c :: pyClean rest
  | [] => []

/-- Numeric value of a run of decimal digit characters. -/
def digitsToNat (ds : List Char) : ℕ :=
  ds.foldl (fun a c => 10 * a + (c.toNat - 48)) 0

/-- The exact value of a matched decimal literal `I.F` (what Python's
`float(...)` receives): integer part, fraction digits read as a numeral,
and the number of fraction digits.  Its rational value is
`intPart + fracNum / 10 ^ fracLen`; a bare integer has `fracNum = 0`,
`fracLen = 0`.  Modelling note: `float` rounds a long literal to the
nearest double; the embedding keeps the exact decimal value instead, which
agrees with the double on every value whose decimal tail is short enough
to be represented — in particular on every integer and half-integer the
rounding claims are about. -/
structure PyFloat where
  intPart : ℕ
  fracNum : ℕ
  fracLen : ℕ
deriving DecidableEq

/-- The rational value of a parsed decimal literal. -/
def PyFloat.val (x : PyFloat) : ℚ :=
  (x.intPart : ℚ) + (x.fracNum : ℚ) / (10 : ℚ) ^ x.fracLen

/-- Parse the regex token `\d+(?:\.\d+)?` at the head of the input:
the maximal digit run, extended by a fractional part when a dot followed
by at least one digit comes directly after it.  Returns the parsed value
and the remaining characters; `none` when the input does not start with a
digit. -/
def parseNumAt (cs : List Char) : Option (PyFloat × List Char) :=
  let run := cs.takeWhile Char.isDigit
  let rest := cs.dropWhile Char.isDigit
  if run.isEmpty then none
  else
    match rest with
    | '.' :: r2 =>
      let f := r2.takeWhile Char.isDigit
      if f.isEmpty then some (⟨digitsToNat run, 0, 0⟩, rest)
      else some (⟨digitsToNat run, digitsToNat f, f.length⟩, r2.dropWhile Char.isDigit)
    | _ => some (⟨digitsToNat run, 0, 0⟩, rest)

/-- Leftmost match of `\d+(?:\.\d+)?` in the input: the first number in the
text (used for the simple-label captures and for fallback "Try 3"). -/
def findNum : List Char → Option PyFloat
  | [] => none
  | c :: cs =>
    match parseNumAt (c :: cs) with
    | some (q, _) => some q
    | none => findNum cs

/-- Case-insensitive match of a literal word (given in lowercase) at the head
of the input; returns the consumed characters and the remainder. -/
def matchCI : List Char → List Char → Option (List Char × List Char)
  | [], cs => some ([], cs)
  | _ :: _, [] => none
  | p :: ps, c :: cs =>
    if c.toLower = p then
      match matchCI ps cs with
      | some (k, r) => some (c :: k, r)
      | none => none
    else none

/-- Match `word1 \s* word2` (case-insensitive) at the head of the input, the
shape of the labels `Reach\s*Score`, …, `Weighted\s*Total`.  Returns the
matched characters and the remainder. -/
def matchLabel (w1 w2 : List Char) (cs : List Char) : Option (List Char × List Char) :=
  match matchCI w1 cs with
  | none => none
  | some (k1, r1) =>
    match matchCI w2 (r1.dropWhile isPySpace) with
    | none => none
    | some (k2, r2) => some (k1 ++ r1.takeWhile isPySpace ++ k2, r2)

/-- Leftmost match of `word1\s*word2\D*?(\d+(?:\.\d+)?)`: at the first
position where the label matches and some digit follows, capture the first
number after the label.  This is `re.search` for the three simple patterns
of `extract_scores` (reach / engagement / virality). -/
def scanLabelNum (w1 w2 : List Char) : List Char → Option PyFloat
  | [] => none
  | c :: cs =>
    match matchLabel w1 w2 (c :: cs) with
    | some (_, rest) =>
      match findNum rest with
      | some q => some q
      | none => scanLabelNum w1 w2 cs
    | none => scanLabelNum w1 w2 cs

/-- Remainder after the leftmost occurrence of `word1\s*word2`
(case-insensitive).  Used to state claims about label occurrences. -/
def scanLabel (w1 w2 : List Char) : List Char → Option (List Char)
  | [] => none
  | c :: cs =>
    match matchLabel w1 w2 (c :: cs) with
    | some (_, rest) => some rest
    | none => scanLabel w1 w2 cs

/-- First word of the weighted-total label pattern. -/
def wtW : List Char := ['w','e','i','g','h','t','e','d']

/-- Second word of the weighted-total label pattern. -/
def wtT : List Char := ['t','o','t','a','l']

/-- Leftmost match of `Weighted\s*Total[^\n]+`: scan for the label; at a
position where it matches, the rest of the physical line after the label
must be non-empty, otherwise the scan moves on (exactly like the regex
engine).  Returns the full matched text `wt_line` (label text included,
then everything up to the end of the line). -/
def wtScan : List Char → Option (List Char)
  | [] => none
  | c :: cs =>
    match matchLabel wtW wtT (c :: cs) with
    | some (lab, rest) =>
      let line := rest.takeWhile (fun d => d ≠ '\n')
      if line.isEmpty then wtScan cs else some (lab ++ line)
    | none => wtScan cs

/-- Match of `(\d+(?:\.\d+)?)\s*/\s*100` anchored at the head of the input:
a number, optional whitespace, a slash, optional whitespace, the literal
digits `100` (no boundary required after them). -/
def slash100At (cs : List Char) : Option PyFloat :=
  match parseNumAt cs with
  | none => none
  | some (q, rest) =>
    match rest.dropWhile isPySpace with
    | '/' :: r2 =>
      match r2.dropWhile isPySpace with
      | '1' :: '0' :: '0' :: _ => some q
      | _ => none
    | _ => none

/-- Leftmost match of `(\d+(?:\.\d+)?)\s*/\s*100` — "Try 1" of the
weighted-total extraction. -/
def findSlash100 : List Char → Option PyFloat
  | [] => none
  | c :: cs =>
    match slash100At (c :: cs) with
    | some q => some q
    | none => findSlash100 cs

/-- `wt_line[wt_line.rfind("="):]`: the suffix starting at the last `=`
character, or `none` when the line has no `=` (`rfind` returns -1).
The last `=` is the one in the tail when the tail has any, else the head
when the head is `=`. -/
def afterLastEq : List Char → Option (List Char)
  | [] => none
  | c :: cs =>
    match afterLastEq cs with
    | some r => some r
    | none => if c = '=' then some (c :: cs) else none

/-- `re.findall(r"(\d+(?:\.\d+)?)", s)` with the given fuel: all
non-overlapping number tokens, left to right.  Each successful parse
consumes at least one character, so fuel `= length` suffices. -/
def allNumsF : ℕ → List Char → List PyFloat
  | 0, _ => []
  | _, [] => []
  | fuel + 1, c :: cs =>
    match parseNumAt (c :: cs) with
    | some (q, rest) => q :: allNumsF fuel rest
    | none => allNumsF fuel cs

/-- All number tokens in the text, left to right (`re.findall`). -/
def allNums (cs : List Char) : List PyFloat := allNumsF cs.length cs

/-- The tiered weighted-total value of a matched `wt_line`:
Try 1 — a number followed by `/100`; else Try 2 — the last number after the
last `=` (when the line has an `=`); else Try 3 — the first number on the
line.  `none` leaves the default in place. -/
def wtValue (line : List Char) : Option PyFloat :=
  match findSlash100 line with
  | some q => some q
  | none =>
    match afterLastEq line with
    | some a => (allNums a).getLast?
    | none => findNum line

/-- Python's built-in `round` to an integer, on the value of a parsed
decimal: round half to even.  The fractional part `fracNum / 10 ^ fracLen`
is below, above or exactly one half according as `2 * fracNum` compares
with `10 ^ fracLen`; on the exact half, ties go to the even neighbour. -/
def pyRound (x : PyFloat) : ℤ :=
  if 2 * x.fracNum < 10 ^ x.fracLen then (x.intPart : ℤ)
  else if 10 ^ x.fracLen < 2 * x.fracNum then (x.intPart : ℤ) + 1
  else if 2 ∣ x.intPart then (x.intPart : ℤ) else (x.intPart : ℤ) + 1

/-- `min(100, max(0, score))`. -/
def clampScore (z : ℤ) : ℤ := min 100 (max 0 z)

/-- A found number becomes `min(100, max(0, round(float(n))))`; a missed
pattern leaves the default 50. -/
def scoreFromOpt (o : Option PyFloat) : ℤ :=
  match o with
  | some q => clampScore (pyRound q)
  | none => 50

/-- The four-field score set built by `extract_scores` (the `scores` dict,
default `{"reach": 50, "engagement": 50, "virality": 50, "weighted_total": 50}`). -/
structure ScoreSet where
  reach : ℤ
  engagement : ℤ
  virality : ℤ
  weighted_total : ℤ
deriving DecidableEq

/-- The default score set. -/
def defaultScores : ScoreSet := ⟨50, 50, 50, 50⟩

/-- `extract_scores(algorithm_response)`: strip `**`, capture the first
number after each of the three simple labels, and extract the weighted
total from the first `Weighted\s*Total[^\n]+` line via the three-tier
fallback.  Every found value is rounded and clamped to [0, 100]; fields
with no match keep the default 50. -/
def extract_scores (algorithm_response : String) : ScoreSet :=
  { reach :=
      scoreFromOpt (scanLabelNum ['r','e','a','c','h'] ['s','c','o','r','e']
        (pyClean algorithm_response.data))
    engagement :=
      scoreFromOpt (scanLabelNum ['e','n','g','a','g','e','m','e','n','t'] ['s','c','o','r','e']
        (pyClean algorithm_response.data))
    virality :=
      scoreFromOpt (scanLabelNum ['v','i','r','a','l','i','t','y'] ['s','c','o','r','e']
        (pyClean algorithm_response.data))
    weighted_total :=
      scoreFromOpt ((wtScan (pyClean algorithm_response.data)).bind wtValue) }

/-! ## Platform rubrics (`config/platform_rules.py`) -/

/-- One entry of a rubric's `criteria` dict: name, weight and description. -/
structure Criterion where
  name : String
  weight : ℚ
  description : String
deriving DecidableEq

/-- One value of the `PLATFORM_RULES` dict. -/
structure PlatformRule where
  description : String
  format_hint : String
  criteria : List Criterion
deriving DecidableEq

/-- `PLATFORMS = ["TikTok", "Twitter/X", "YouTube", "Instagram"]`. -/
def PLATFORMS : List String := ["TikTok", "Twitter/X", "YouTube", "Instagram"]

/-- The TikTok rubric. -/
def tikTokRule : PlatformRule :=
  { description := "Short-form video platform driven by the For You Page algorithm"
    format_hint := "Short-form video (15-60s), vertical, with trending audio"
    criteria :=
      [⟨"hook_strength", 0.30,
        "How strong is the opening hook? TikTok's algorithm measures retention in the first 1-3 seconds. A weak hook kills distribution."⟩,
       ⟨"trend_alignment", 0.25,
        "Does the content ride a current trend, sound, or format? The FYP algorithm boosts content that matches trending signals."⟩,
       ⟨"shareability", 0.20,
        "Would viewers send this to a friend or duet/stitch it? Shares are the highest-weight engagement signal on TikTok."⟩,
       ⟨"hashtag_strategy", 0.15,
        "Are hashtags relevant and discoverable? Mixing niche and broad hashtags helps the algorithm classify and distribute content."⟩,
       ⟨"audio_reference", 0.10,
        "Does the post reference or suggest a trending audio? TikTok's algorithm clusters content by audio for distribution."⟩] }

/-- The Twitter/X rubric. -/
def twitterRule : PlatformRule :=
  { description := "Text-first microblogging platform driven by engagement velocity"
    format_hint := "Tweet or thread, hot takes, quote-retweet bait"
    criteria :=
      [⟨"hot_take_factor", 0.30,
        "Does the post have a strong, polarising, or surprising opinion? Twitter/X rewards engagement velocity — hot takes drive replies."⟩,
       ⟨"quote_retweet_bait", 0.25,
        "Is the post structured to invite quote retweets? QRTs are Twitter/X's most powerful distribution mechanic."⟩,
       ⟨"timing_relevance", 0.20,
        "Is this posted at the right moment? Twitter/X's algorithm heavily weights recency and real-time relevance."⟩,
       ⟨"thread_potential", 0.15,
        "Could this expand into a thread? Threads increase time-on-post and signal depth to the algorithm."⟩,
       ⟨"hashtag_strategy", 0.10,
        "Are hashtags used sparingly and strategically? Over-hashtagging on Twitter/X reduces credibility and reach."⟩] }

/-- The YouTube rubric. -/
def youTubeRule : PlatformRule :=
  { description := "Long and short-form video platform driven by watch time and CTR"
    format_hint := "Video (Shorts or long-form), strong thumbnail + title"
    criteria :=
      [⟨"thumbnail_clickability", 0.25,
        "Would the suggested thumbnail stop a scroll? YouTube's algorithm uses click-through rate as a primary ranking signal."⟩,
       ⟨"title_curiosity_gap", 0.25,
        "Does the title create curiosity without being pure clickbait? The algorithm balances CTR against viewer satisfaction."⟩,
       ⟨"watch_time_potential", 0.20,
        "Will viewers watch most of the video? Average view duration is YouTube's strongest ranking signal."⟩,
       ⟨"seo_optimization", 0.15,
        "Are keywords, tags, and description optimised for search? YouTube is the world's second-largest search engine."⟩,
       ⟨"community_engagement", 0.15,
        "Does the content encourage comments and likes? Engagement rate signals quality to YouTube's recommendation system."⟩] }

/-- The Instagram rubric. -/
def instagramRule : PlatformRule :=
  { description := "Visual-first platform driven by saves, shares, and Explore page"
    format_hint := "Reel, carousel, or single image with strong caption"
    criteria :=
      [⟨"visual_appeal", 0.30,
        "Is the visual content eye-catching and high quality? Instagram's algorithm prioritises posts that generate saves and long views."⟩,
       ⟨"caption_hook", 0.20,
        "Does the caption hook in the first line (before 'more')? Caption engagement drives the algorithm's interest scoring."⟩,
       ⟨"carousel_potential", 0.20,
        "Could this be a swipeable carousel? Carousels get re-served by the algorithm when users didn't swipe through all slides."⟩,
       ⟨"hashtag_reach", 0.15,
        "Is there a mix of niche and popular hashtags (20-30 range)? Instagram uses hashtags to classify content for Explore."⟩,
       ⟨"story_crosspost", 0.15,
        "Is this structured to also work as a Story or Reel? Cross-format posting increases total distribution surface."⟩] }

/-- `PLATFORM_RULES`: the static platform → rubric dict. -/
def PLATFORM_RULES : List (String × PlatformRule) :=
  [("TikTok", tikTokRule), ("Twitter/X", twitterRule),
   ("YouTube", youTubeRule), ("Instagram", instagramRule)]

/-- The failure of a rubric lookup for a platform outside the static set
(a `KeyError` on the dict access in `build_scoring_rubric`; the spec names
it `UnknownPlatformError`). -/
inductive RubricError where
  | unknownPlatform (platform : String)
deriving DecidableEq

/-- The rubric lookup `PLATFORM_RULES[platform]` performed by
`build_scoring_rubric` (the spec's `get_rubric`): the platform's rubric,
or `UnknownPlatformError` when the key is absent. -/
def get_rubric (platform : String) : Except RubricError PlatformRule :=
  match PLATFORM_RULES.lookup platform with
  | some r => Except.ok r
  | none => Except.error (RubricError.unknownPlatform platform)

/-- The weights of a rubric's criteria, in table order. -/
def criteriaWeights (r : PlatformRule) : List ℚ := r.criteria.map Criterion.weight

/-! ## Trend fetching (`tools/trends_tool.py`) -/

/-- One entry of `tr.trending_now(geo="US")`: a keyword and an optional
topic-id list. -/
structure TrendItem where
  keyword : String
  topics : Option (List ℕ)
deriving DecidableEq

/-- The trendspy topic id for Games. -/
def GAMES_TOPIC_ID : ℕ := 6

/-- The keyword allow-list used as a backup filter. -/
def gaming_keywords : List String :=
  ["game", "gaming", "gamer", "esport", "playstation", "xbox",
   "nintendo", "steam", "twitch", "fortnite", "valorant", "league",
   "minecraft", "roblox", "cod", "warzone", "apex", "zelda",
   "mario", "pokemon", "gta", "elden", "final fantasy", "ps5",
   "ps6", "switch", "gpu", "rtx", "dlc"]

/-- Whether `needle` stands at the head of `hay`. -/
def headMatches : List Char → List Char → Bool
  | [], _ => true
  | _ :: _, [] => false
  | a :: as, b :: bs => a = b && headMatches as bs

/-- Python's substring test `needle in hay`. -/
def containsSub (needle : List Char) : List Char → Bool
  | [] => headMatches needle []
  | c :: cs => headMatches needle (c :: cs) || containsSub needle cs

/-- `s.lower()` (ASCII). -/
def strLower (s : String) : List Char := s.data.map Char.toLower

/-- `fetch_gaming_trends(count)`.  The live lookup (`trendspy`) is an
outside service and is passed in as data: `Except` of an exception or the
fetched trend list.  The fallback list is the content of
`sample_trends.json`; the file itself is not part of the sources, so —
modelled from the spec: a static JSON document holding a list of topic
strings — its parsed content `sample` is also a parameter.  On any live
failure the function degrades to `sample[:count]`; otherwise it filters by
the Games topic id, pads with keyword matches and then with the sample
data (deduplicating by exact string), and truncates to `count`. -/
def fetch_gaming_trends (live : Except String (List TrendItem))
    (sample : List String) (count : ℕ) : List String :=
  match live with
  | Except.error _ => sample.take count
  | Except.ok all_trends =>
    let gaming_trends :=
      (all_trends.filter (fun t => (t.topics.getD []).contains GAMES_TOPIC_ID)).map
        TrendItem.keyword
    if 5 ≤ gaming_trends.length then gaming_trends.take count
    else
      let keyword_matches :=
        (all_trends.filter (fun t =>
          !gaming_trends.contains t.keyword &&
            gaming_keywords.any (fun kw => containsSub kw.data (strLower t.keyword)))).map
          TrendItem.keyword
      let gaming_trends2 := gaming_trends ++ keyword_matches
      if 5 ≤ gaming_trends2.length then gaming_trends2.take count
      else
        let combined := gaming_trends2 ++ sample.filter (fun t => !gaming_trends2.contains t)
        combined.take count

/-! ## The round loop (`run_game`) -/

/-- `MAX_ITERATIONS = 3`. -/
def MAX_ITERATIONS : ℕ := 3

/-- The player's choice at the end of a non-final round: "1" (iterate)
or "2" (lock in). -/
inductive Choice where
  | iterate
  | lockin
deriving DecidableEq

/-- The three agent responses of one executed round. -/
structure RoundRecord where
  creator_response : String
  algorithm_response : String
  audience_response : String
deriving DecidableEq

/-- The observable outcome of the round loop: the final value of
`iteration`, the executed rounds in order, the last extracted score set
(shown on the final scorecard) and whether the session is finalized. -/
structure GameOutcome where
  iteration : ℕ
  rounds : List RoundRecord
  scores : ScoreSet
  finalized : Bool
deriving DecidableEq

/-- One pass of the `while iteration < MAX_ITERATIONS` loop of `run_game`.
The three agents are outside LLM services; their replies are passed in as
round-indexed oracles `gen`, `ev`, `re1` (creator, algorithm simulator,
audience persona).  Each loop pass increments `iteration`, runs the full
Generator→Evaluator→Reactor cycle, extracts the scores of the evaluation
text, and then either asks the player (when `iteration < MAX_ITERATIONS`;
lock-in breaks out) or force-finalizes at the iteration cap.  `fuel` bounds
the recursion; `MAX_ITERATIONS` passes always suffice. -/
def gameLoop (gen ev re1 : ℕ → String) (choice : ℕ → Choice) :
    ℕ → ℕ → List RoundRecord → ScoreSet → GameOutcome
  | 0, iteration, log, scores => ⟨iteration, log, scores, true⟩
  | fuel + 1, iteration, log, scores =>
    if iteration < MAX_ITERATIONS then
      let i := iteration + 1
      let rec1 : RoundRecord := ⟨gen i, ev i, re1 i⟩
      let s := extract_scores (ev i)
      if i < MAX_ITERATIONS then
        match choice i with
        | Choice.lockin => ⟨i, log ++ [rec1], s, true⟩
        | Choice.iterate => gameLoop gen ev re1 choice fuel i (log ++ [rec1]) s
      else ⟨i, log ++ [rec1], s, true⟩
    else ⟨iteration, log, scores, true⟩

/-- The round loop of `run_game`, started at `iteration = 0` with an empty
history and the default score baseline (the scorecard falls back to 50 for
a field the dict never received). -/
def run_game (gen ev re1 : ℕ → String) (choice : ℕ → Choice) : GameOutcome :=
  gameLoop gen ev re1 choice MAX_ITERATIONS 0 [] defaultScores

/-! ## Helper notions for stating the claims -/

/-- A sequence of extractor calls, one per input, in order: used to state
that a call's result does not depend on the calls before it. -/
def extractSession (history : List String) : List ScoreSet :=
  history.map extract_scores

/-- The physical lines of a text (split at every newline). -/
def splitLinesCh : List Char → List (List Char)
  | [] => [[]]
  | '\n' :: cs => [] :: splitLinesCh cs
  | c :: cs =>
    match splitLinesCh cs with
    | l :: ls => (c :: l) :: ls
    | [] => [[c]]

/-- Whether the weighted-total label occurs somewhere in a line. -/
def lineHasWT (l : List Char) : Bool :=
  (scanLabel wtW wtT l).isSome

/-- Modelled from the claim's words (C2), for comparison with the code:
take the FIRST PHYSICAL LINE containing the weighted-total label, and apply
the three-tier fallback to that whole line — `/100` first, then the last
number after the last `=`, then the first number appearing anywhere on the
line; 50 when no such line exists. -/
def claimC2WeightedTotal (t : String) : ℤ :=
  match (splitLinesCh (pyClean t.data)).find? lineHasWT with
  | none => 50
  | some L =>
    match findSlash100 L with
    | some q => clampScore (pyRound q)
    | none =>
      match afterLastEq L with
      | some a =>
        match (allNums a).getLast? with
        | some q => clampScore (pyRound q)
        | none => 50
      | none =>
        match findNum L with
        | some q => clampScore (pyRound q)
        | none => 50

/-- Whether a list starts with a fractional part: a dot directly followed
by a digit (the regex suffix `(?:\.\d+)?` extends a number exactly then). -/
def fracStart : List Char → Bool
  | '.' :: d :: _ => d.isDigit
  | _ => false

/-- Whether a number token ending just before `cs` would end there too in a
larger text: `cs` neither starts with a digit nor with a fractional part. -/
def numBoundary (cs : List Char) : Bool :=
  match cs with
  | [] => true
  | c :: _ => !c.isDigit && !fracStart cs

/-! ## Supporting lemmas -/

/-- A clamped value lies in [0, 100]. -/
theorem clampScore_bounds (z : ℤ) : 0 ≤ clampScore z ∧ clampScore z ≤ 100 := by
  unfold clampScore
  omega

/-- Every field value the extractor produces lies in [0, 100]. -/
theorem scoreFromOpt_bounds (o : Option PyFloat) :
    0 ≤ scoreFromOpt o ∧ scoreFromOpt o ≤ 100 := by
  cases o with
  | none => exact ⟨by norm_num [scoreFromOpt], by norm_num [scoreFromOpt]⟩
  | some q => exact clampScore_bounds (pyRound q)

/-- The last element of a list with a known final element. -/
theorem getLast?_append_singleton {α : Type} (l : List α) (a : α) :
    (l ++ [a]).getLast? = some a := by
  induction l with
  | nil => rfl
  | cons b bs ih =>
    cases bs with
    | nil => rfl
    | cons c cs =>
      rw [List.cons_append, List.cons_append, List.getLast?_cons_cons]
      simpa [List.cons_append] using ih

/-! ## The claims -/

/-- C1: for every input string (the empty string included) the extractor
returns exactly four integer scores, each in [0, 100]; a field with no
matched pattern keeps the default 50 (on the empty string all four stay at
50); the extractor is a total function and never fails. -/
theorem extract_scores_bounds (s : String) :
    (0 ≤ (extract_scores s).reach ∧ (extract_scores s).reach ≤ 100)
    ∧ (0 ≤ (extract_scores s).engagement ∧ (extract_scores s).engagement ≤ 100)
    ∧ (0 ≤ (extract_scores s).virality ∧ (extract_scores s).virality ≤ 100)
    ∧ (0 ≤ (extract_scores s).weighted_total ∧ (extract_scores s).weighted_total ≤ 100)
    ∧ extract_scores "" = defaultScores :=
  ⟨scoreFromOpt_bounds _, scoreFromOpt_bounds _, scoreFromOpt_bounds _,
   scoreFromOpt_bounds _, rfl⟩

/-- C5: the extractor is a pure, deterministic function of its input text:
the result of extracting a text at the end of any call history is the
extraction of that text alone, so two runs on the same input — after
different prior call sequences — agree, with every field recomputed from
the 50/50/50/50 baseline inside the call. -/
theorem extract_scores_pure (h1 h2 : List String) (s : String) :
    (extractSession (h1 ++ [s])).getLast? = some (extract_scores s)
    ∧ (extractSession (h1 ++ [s])).getLast? = (extractSession (h2 ++ [s])).getLast? := by
  constructor
  · simp only [extractSession, List.map_append, List.map_cons, List.map_nil]
    exact getLast?_append_singleton _ _
  · simp only [extractSession, List.map_append, List.map_cons, List.map_nil]
    rw [getLast?_append_singleton (h1.map extract_scores) (extract_scores s),
        getLast?_append_singleton (h2.map extract_scores) (extract_scores s)]

/-- C6: the trend fetcher never raises — it is a total function whose
failure paths all return data — and when the live lookup raises, the result
is exactly the first `count` entries of the static fallback list, in
order; in particular `count = 5` returns the first 5 entries. -/
theorem fetch_trends_fallback (e : String) (sample : List String) (count : ℕ) :
    fetch_gaming_trends (Except.error e) sample count = sample.take count
    ∧ fetch_gaming_trends (Except.error e) sample 5 = sample.take 5 :=
  ⟨rfl, rfl⟩

/-- C7: the rubric lookup fails with `UnknownPlatformError` exactly on
platform identifiers outside the static set, and succeeds — returning that
platform's entry of the static table — on every platform in the set. -/
theorem get_rubric_static_set :
    (∀ p : String, p ∉ PLATFORMS →
      get_rubric p = Except.error (RubricError.unknownPlatform p))
    ∧ ∀ p ∈ PLATFORMS, ∃ r, PLATFORM_RULES.lookup p = some r ∧ get_rubric p = Except.ok r := by
  constructor
  · intro p hp
    simp only [PLATFORMS, List.mem_cons, List.not_mem_nil, or_false, not_or] at hp
    obtain ⟨h1, h2, h3, h4⟩ := hp
    have b1 : (p == "TikTok") = false := beq_eq_false_iff_ne.mpr h1
    have b2 : (p == "Twitter/X") = false := beq_eq_false_iff_ne.mpr h2
    have b3 : (p == "YouTube") = false := beq_eq_false_iff_ne.mpr h3
    have b4 : (p == "Instagram") = false := beq_eq_false_iff_ne.mpr h4
    simp [get_rubric, PLATFORM_RULES, List.lookup, b1, b2, b3, b4]
  · intro p hp
    fin_cases hp
    · exact ⟨tikTokRule, rfl, rfl⟩
    · exact ⟨twitterRule, rfl, rfl⟩
    · exact ⟨youTubeRule, rfl, rfl⟩
    · exact ⟨instagramRule, rfl, rfl⟩

/-- C7 witness: a platform outside the set fails, one inside succeeds. -/
theorem get_rubric_static_set_witness :
    get_rubric "Facebook" = Except.error (RubricError.unknownPlatform "Facebook")
    ∧ ∃ r, PLATFORM_RULES.lookup "TikTok" = some r ∧ get_rubric "TikTok" = Except.ok r :=
  ⟨get_rubric_static_set.1 "Facebook" (by decide),
   get_rubric_static_set.2 "TikTok" (by decide)⟩

/-- C8: for every platform in the static set, the criterion weights of its
rubric sum to exactly 1 and each weight lies in [0, 1]. -/
theorem rubric_weights (p : String) (hp : p ∈ PLATFORMS) :
    ∃ r, PLATFORM_RULES.lookup p = some r ∧ (criteriaWeights r).sum = 1
      ∧ ∀ w ∈ criteriaWeights r, 0 ≤ w ∧ w ≤ 1 := by
  fin_cases hp
  · refine ⟨tikTokRule, rfl, by norm_num [criteriaWeights, tikTokRule], ?_⟩
    intro w hw
    simp only [criteriaWeights, tikTokRule, List.map_cons, List.map_nil,
      List.mem_cons, List.not_mem_nil, or_false] at hw
    rcases hw with h | h | h | h | h <;> rw [h] <;> norm_num
  · refine ⟨twitterRule, rfl, by norm_num [criteriaWeights, twitterRule], ?_⟩
    intro w hw
    simp only [criteriaWeights, twitterRule, List.map_cons, List.map_nil,
      List.mem_cons, List.not_mem_nil, or_false] at hw
    rcases hw with h | h | h | h | h <;> rw [h] <;> norm_num
  · refine ⟨youTubeRule, rfl, by norm_num [criteriaWeights, youTubeRule], ?_⟩
    intro w hw
    simp only [criteriaWeights, youTubeRule, List.map_cons, List.map_nil,
      List.mem_cons, List.not_mem_nil, or_false] at hw
    rcases hw with h | h | h | h | h <;> rw [h] <;> norm_num
  · refine ⟨instagramRule, rfl, by norm_num [criteriaWeights, instagramRule], ?_⟩
    intro w hw
    simp only [criteriaWeights, instagramRule, List.map_cons, List.map_nil,
      List.mem_cons, List.not_mem_nil, or_false] at hw
    rcases hw with h | h | h | h | h <;> rw [h] <;> norm_num

/-- C8 witness: the TikTok rubric's weights sum to 1 and lie in [0, 1]. -/
theorem rubric_weights_witness :
    ∃ r, PLATFORM_RULES.lookup "TikTok" = some r ∧ (criteriaWeights r).sum = 1
      ∧ ∀ w ∈ criteriaWeights r, 0 ≤ w ∧ w ≤ 1 :=
  rubric_weights "TikTok" (by decide)

/-- C4: the round loop (maximum 3 rounds) runs one full
Generator→Evaluator→Reactor cycle per round, advances only on an explicit
iterate choice below round 3, finalizes on lock-in, and force-finalizes
after round 3: iterating throughout yields exactly the 3 cycles of rounds
1–3 with round 3's extracted scores, finalized; locking in on round 1
yields exactly round 1's cycle with round 1's extracted scores, finalized. -/
theorem run_game_rounds (gen ev re1 : ℕ → String) (choice : ℕ → Choice) :
    ((∀ i, choice i = Choice.iterate) →
      run_game gen ev re1 choice =
        ⟨3, [⟨gen 1, ev 1, re1 1⟩, ⟨gen 2, ev 2, re1 2⟩, ⟨gen 3, ev 3, re1 3⟩],
         extract_scores (ev 3), true⟩)
    ∧ (choice 1 = Choice.lockin →
      run_game gen ev re1 choice =
        ⟨1, [⟨gen 1, ev 1, re1 1⟩], extract_scores (ev 1), true⟩) := by
  constructor
  · intro h
    simp [run_game, gameLoop, MAX_ITERATIONS, h 1, h 2]
  · intro h
    simp [run_game, gameLoop, MAX_ITERATIONS, h]

/-- C4 witness: both schedules at concrete oracle functions. -/
theorem run_game_rounds_witness :
    run_game (fun _ => "a") (fun _ => "b") (fun _ => "c") (fun _ => Choice.iterate) =
      ⟨3, [⟨"a", "b", "c"⟩, ⟨"a", "b", "c"⟩, ⟨"a", "b", "c"⟩], extract_scores "b", true⟩
    ∧ run_game (fun _ => "a") (fun _ => "b") (fun _ => "c") (fun _ => Choice.lockin) =
      ⟨1, [⟨"a", "b", "c"⟩], extract_scores "b", true⟩ :=
  ⟨(run_game_rounds _ _ _ _).1 (fun _ => rfl), (run_game_rounds _ _ _ _).2 rfl⟩

/-- C10: every rounding in the extractor is Python's round-half-to-even: a
parsed value whose fractional part is exactly one half (its value is
`intPart + 1/2`) rounds to the even neighbour, and on the concrete spec
examples the weighted-total path rounds 61.5 to 62 and 62.5 to 62, with the
same tie-break on the reach, engagement and virality paths. -/
theorem pyRound_half_even :
    (∀ x : PyFloat, 2 * x.fracNum = 10 ^ x.fracLen →
      x.val = (x.intPart : ℚ) + 1 / 2
      ∧ pyRound x = (if 2 ∣ x.intPart then (x.intPart : ℤ) else (x.intPart : ℤ) + 1))
    ∧ (extract_scores "Weighted Total = 61.5").weighted_total = 62
    ∧ (extract_scores "Weighted Total = 62.5").weighted_total = 62
    ∧ (extract_scores "Reach Score: 61.5").reach = 62
    ∧ (extract_scores "Engagement Score: 61.5").engagement = 62
    ∧ (extract_scores "Virality Score: 62.5").virality = 62 := by
  refine ⟨?_, rfl, rfl, rfl, rfl, rfl⟩
  intro x hx
  constructor
  · unfold PyFloat.val
    have hfr : ((x.fracNum : ℚ)) / (10 : ℚ) ^ x.fracLen = 1 / 2 := by
      have hc : ((2 * x.fracNum : ℕ) : ℚ) = ((10 ^ x.fracLen : ℕ) : ℚ) := by exact_mod_cast hx
      push_cast at hc
      have h10 : ((10 : ℚ) ^ x.fracLen) ≠ 0 := by positivity
      field_simp
      linarith
    rw [hfr]
  · unfold pyRound
    rw [hx]
    simp only [lt_self_iff_false, if_false]

/-- C10 witness: the tie lemma at the parsed literal 61.5. -/
theorem pyRound_half_even_witness :
    PyFloat.val ⟨61, 5, 1⟩ = ((61 : ℕ) : ℚ) + 1 / 2
    ∧ pyRound ⟨61, 5, 1⟩ = (if 2 ∣ (61 : ℕ) then ((61 : ℕ) : ℤ) else ((61 : ℕ) : ℤ) + 1) :=
  pyRound_half_even.1 ⟨61, 5, 1⟩ (by norm_num)

/-- A number token cannot start at a non-digit character. -/
theorem parseNumAt_none (c : Char) (cs : List Char) (hc : c.isDigit = false) :
    parseNumAt (c :: cs) = none := by
  unfold parseNumAt
  simp [List.takeWhile_cons, hc]

/-- A text with no digit holds no number. -/
theorem findNum_none : ∀ (l : List Char), (∀ c ∈ l, c.isDigit = false) →
    findNum l = none
  | [], _ => rfl
  | c :: cs, h => by
    rw [findNum, parseNumAt_none c cs (h c (List.mem_cons_self c cs))]
    exact findNum_none cs (fun d hd => h d (List.mem_cons_of_mem c hd))

/-- A text with no digit matches no `N/100` pattern. -/
theorem findSlash100_none : ∀ (l : List Char), (∀ c ∈ l, c.isDigit = false) →
    findSlash100 l = none
  | [], _ => rfl
  | c :: cs, h => by
    rw [findSlash100]
    have : slash100At (c :: cs) = none := by
      unfold slash100At
      rw [parseNumAt_none c cs (h c (List.mem_cons_self c cs))]
    rw [this]
    exact findSlash100_none cs (fun d hd => h d (List.mem_cons_of_mem c hd))

/-- A text with no digit yields no number tokens. -/
theorem allNumsF_nil : ∀ (fuel : ℕ) (l : List Char), (∀ c ∈ l, c.isDigit = false) →
    allNumsF fuel l = []
  | 0, l, _ => by cases l <;> rfl
  | _ + 1, [], _ => rfl
  | fuel + 1, c :: cs, h => by
    rw [allNumsF, parseNumAt_none c cs (h c (List.mem_cons_self c cs))]
    exact allNumsF_nil fuel cs (fun d hd => h d (List.mem_cons_of_mem c hd))

/-- The suffix after the last `=` only holds characters of the line. -/
theorem afterLastEq_mem : ∀ (l a : List Char), afterLastEq l = some a →
    ∀ c ∈ a, c ∈ l
  | [], a, h => by simp [afterLastEq] at h
  | b :: bs, a, h => by
    rw [afterLastEq] at h
    cases h2 : afterLastEq bs with
    | some r =>
      rw [h2] at h
      obtain rfl : r = a := by injection h
      exact fun c hc => List.mem_cons_of_mem b (afterLastEq_mem bs _ h2 c hc)
    | none =>
      rw [h2] at h
      by_cases hb : b = '='
      · rw [if_pos hb] at h
        obtain rfl : b :: bs = a := by injection h
        exact fun c hc => hc
      · rw [if_neg hb] at h
        exact absurd h (by simp)

/-- On a line with no digit, all three weighted-total tiers fail. -/
theorem wtValue_none (L : List Char) (h : ∀ c ∈ L, c.isDigit = false) :
    wtValue L = none := by
  unfold wtValue
  rw [findSlash100_none L h]
  cases ha : afterLastEq L with
  | none => simp [findNum_none L h]
  | some a =>
    have hna : ∀ c ∈ a, c.isDigit = false :=
      fun c hc => h c (afterLastEq_mem L a ha c hc)
    have hnil : allNums a = [] := allNumsF_nil a.length a hna
    simp [hnil]

/-- C9: the weighted-total extraction is line-restricted — corrected form.
The scope is the matched `wt_line`: the first occurrence of the label that
is followed by at least one character on its own line, together with the
rest of that line.  When that scope holds no digit the weighted total stays
50 even if numbers appear on later lines; the reach search, by contrast,
crosses line breaks and takes a number from a later line. -/
theorem wt_line_restricted :
    (∀ (t : String) (L : List Char),
      wtScan (pyClean t.data) = some L →
      (∀ c ∈ L, c.isDigit = false) →
      (extract_scores t).weighted_total = 50)
    ∧ (extract_scores "Reach Score:\n65").reach = 65 := by
  refine ⟨?_, rfl⟩
  intro t L hscan hnd
  have base : (extract_scores t).weighted_total
      = scoreFromOpt ((wtScan (pyClean t.data)).bind wtValue) := rfl
  rw [base, hscan, Option.some_bind, wtValue_none L hnd]
  rfl

/-- C9 witness: a label line with no digit yields 50 although a number
stands on the next line. -/
theorem wt_line_restricted_witness :
    (extract_scores "Weighted Total none\n99").weighted_total = 50 :=
  wt_line_restricted.1 "Weighted Total none\n99" ("Weighted Total none".data) rfl
    (by decide)

/-- C9 counterexample: in this text the weighted-total label occurs (at the
very start) with no digit later on that same line — the remainder of its
line is empty, the match shows the rest starts with the newline — and
digits appear only on the next line; the claim then demands 50, but the
regex skips the end-of-line occurrence, matches the label on the second
line and extracts 7. -/
theorem wt_line_restricted_counterexample :
    matchLabel wtW wtT ("Weighted Total\nWeighted Total: 7").data
      = some ("Weighted Total".data, "\nWeighted Total: 7".data)
    ∧ (extract_scores "Weighted Total\nWeighted Total: 7").weighted_total = 7 :=
  ⟨rfl, rfl⟩

/-- When the first label occurrence is followed by text holding a number,
the label-and-number search captures that occurrence. -/
theorem scanLabelNum_of_scanLabel :
    ∀ (w1 w2 cs rest : List Char) (q : PyFloat),
      scanLabel w1 w2 cs = some rest → findNum rest = some q →
      scanLabelNum w1 w2 cs = some q
  | _, _, [], _, _, h, _ => by simp [scanLabel] at h
  | w1, w2, c :: cs, rest, q, h, hq => by
    rw [scanLabel] at h
    rw [scanLabelNum]
    cases hm : matchLabel w1 w2 (c :: cs) with
    | some pr =>
      obtain ⟨k, rest0⟩ := pr
      rw [hm] at h
      have h4 : (some rest0 : Option (List Char)) = some rest := h
      obtain rfl : rest0 = rest := by injection h4
      simp only [hq]
    | none =>
      rw [hm] at h
      exact scanLabelNum_of_scanLabel w1 w2 cs rest q h hq

/-- The first number in `": 65" ++ r` is 65 whenever `r` does not extend
the digit run or start a fractional part. -/
theorem findNum_colon65 (r : List Char) (hb : numBoundary r = true) :
    findNum (':' :: ' ' :: '6' :: '5' :: r) = some ⟨65, 0, 0⟩ := by
  rw [findNum, parseNumAt_none ':' _ (by decide), findNum,
      parseNumAt_none ' ' _ (by decide), findNum]
  cases r with
  | nil => rfl
  | cons d rs =>
    simp only [numBoundary, Bool.and_eq_true, Bool.not_eq_true'] at hb
    obtain ⟨hd, hf⟩ := hb
    have h6 : ('6' : Char).isDigit = true := rfl
    have h5 : ('5' : Char).isDigit = true := rfl
    have hrun : ('6' :: '5' :: d :: rs).takeWhile Char.isDigit = ['6', '5'] := by
      simp [List.takeWhile_cons, h6, h5, hd]
    have hdrop : ('6' :: '5' :: d :: rs).dropWhile Char.isDigit = d :: rs := by
      simp [List.dropWhile_cons, h6, h5, hd]
    have h65 : digitsToNat ['6', '5'] = 65 := rfl
    have hpar : parseNumAt ('6' :: '5' :: d :: rs)
        = some (⟨65, 0, 0⟩, ('6' :: '5' :: d :: rs).dropWhile Char.isDigit) := by
      unfold parseNumAt
      rw [hrun]
      rw [if_neg (by decide)]
      rw [hdrop]
      by_cases hdot : d = '.'
      · subst hdot
        cases rs with
        | nil => rfl
        | cons e es =>
          have he : e.isDigit = false := by
            simpa [fracStart, Bool.not_eq_true'] using hf
          have hfe : (e :: es).takeWhile Char.isDigit = [] := by
            simp [List.takeWhile_cons, he]
          simp [hfe, h65, hdrop]
      · split
        · rename_i r2 heq
          have hd2 : d = '.' := by injection heq
          exact absurd hd2 hdot
        · simp [h65, hdrop]
    rw [hpar]

/-- C3: the three simple labels are searched case-insensitively for the
label followed by non-digits then a number, taking the first number after
the label's first occurrence, rounded and clamped (50 when absent) —
corrected form of the concrete example: an input whose first reach-label
occurrence is followed by `": 65"` yields reach 65 PROVIDED the 65 is not
extended by a further digit or a fractional part in the stripped text. -/
theorem reach_first_number (t : String) (r : List Char)
    (hfirst : scanLabel ['r','e','a','c','h'] ['s','c','o','r','e'] (pyClean t.data)
        = some (':' :: ' ' :: '6' :: '5' :: r))
    (hb : numBoundary r = true) :
    (extract_scores t).reach = 65 := by
  have h1 := scanLabelNum_of_scanLabel _ _ _ _ _ hfirst (findNum_colon65 r hb)
  have h2 : (extract_scores t).reach
      = scoreFromOpt (scanLabelNum ['r','e','a','c','h'] ['s','c','o','r','e']
          (pyClean t.data)) := rfl
  rw [h2, h1]
  rfl

/-- C3 witness: the spec's own example text. -/
theorem reach_first_number_witness :
    (extract_scores "Reach Score: 65").reach = 65 :=
  reach_first_number "Reach Score: 65" [] rfl rfl

/-- C3 counterexample: `"Reach Score: 657"` contains `"Reach Score: 65"`
(it is that string with `"7"` appended) with no earlier occurrence of the
reach label — the first label occurrence is followed by `": 657"` — yet
the extractor reads the full digit run 657 and clamps it to 100, not 65. -/
theorem reach_contained_counterexample :
    ("Reach Score: 65" ++ "7" : String) = "Reach Score: 657"
    ∧ scanLabel ['r','e','a','c','h'] ['s','c','o','r','e']
        (pyClean ("Reach Score: 657").data) = some (": 657".data)
    ∧ (extract_scores "Reach Score: 657").reach = 100 :=
  ⟨rfl, rfl, rfl⟩

/-- C2: the weighted-total tiers — corrected form.  The scope is not the
whole physical line but the matched `wt_line`: the first label occurrence
followed by at least one same-line character, plus the rest of that line.
Within that scope the tiers are exactly as claimed: a number followed by
`/100` wins; else the last number after the last `=`; else the first
number in the scope; each rounded and clamped; 50 when a tier's number is
absent or no such label occurrence exists. -/
theorem weighted_total_tiers (t : String) :
    (wtScan (pyClean t.data) = none → (extract_scores t).weighted_total = 50)
    ∧ ∀ L, wtScan (pyClean t.data) = some L →
        ((∀ q, findSlash100 L = some q →
            (extract_scores t).weighted_total = clampScore (pyRound q))
         ∧ (findSlash100 L = none →
            ((∀ a, afterLastEq L = some a →
                ((∀ q, (allNums a).getLast? = some q →
                    (extract_scores t).weighted_total = clampScore (pyRound q))
                 ∧ ((allNums a).getLast? = none →
                    (extract_scores t).weighted_total = 50)))
             ∧ (afterLastEq L = none →
                ((∀ q, findNum L = some q →
                    (extract_scores t).weighted_total = clampScore (pyRound q))
                 ∧ (findNum L = none →
                    (extract_scores t).weighted_total = 50)))))) := by
  have base : (extract_scores t).weighted_total
      = scoreFromOpt ((wtScan (pyClean t.data)).bind wtValue) := rfl
  constructor
  · intro h
    rw [base, h]
    rfl
  · intro L hL
    refine ⟨?_, ?_⟩
    · intro q hq
      rw [base, hL, Option.some_bind]
      unfold wtValue
      rw [hq]
      rfl
    · intro hq
      refine ⟨?_, ?_⟩
      · intro a ha
        refine ⟨?_, ?_⟩
        · intro q hlast
          rw [base, hL, Option.some_bind]
          unfold wtValue
          rw [hq, ha]
          simp only [hlast]
          rfl
        · intro hlast
          rw [base, hL, Option.some_bind]
          unfold wtValue
          rw [hq, ha]
          simp only [hlast]
          rfl
      · intro ha
        refine ⟨?_, ?_⟩
        · intro q hfind
          rw [base, hL, Option.some_bind]
          unfold wtValue
          rw [hq, ha]
          simp only [hfind]
          rfl
        · intro hfind
          rw [base, hL, Option.some_bind]
          unfold wtValue
          rw [hq, ha]
          simp only [hfind]
          rfl

/-- C2 witness: the two spec examples through the tier theorem — an `=`
line with the last number 61.5 rounds to 62, and a line holding both an
`=` and a `/100` pattern takes the `/100` number first. -/
theorem weighted_total_tiers_witness :
    (extract_scores "Weighted Total = 61.5").weighted_total = 62
    ∧ (extract_scores "see Weighted Total: score = 68 and 69.25/100 overall").weighted_total
        = 69 := by
  constructor
  · have h := (((weighted_total_tiers "Weighted Total = 61.5").2
      ("Weighted Total = 61.5".data) rfl).2 rfl).1 ("= 61.5".data) rfl
    exact (h.1 ⟨61, 5, 1⟩ rfl).trans rfl
  · have h := ((weighted_total_tiers
      "see Weighted Total: score = 68 and 69.25/100 overall").2
      ("Weighted Total: score = 68 and 69.25/100 overall".data) rfl).1
    exact (h ⟨69, 25, 2⟩ rfl).trans rfl

/-- C2 counterexample: on `"7 Weighted Total abc"` the first (only) line
contains the label, holds no `/100` pattern and no `=`, and its first
number is the 7 standing before the label; the claim therefore demands
weighted total 7, but the extractor only searches from the label to the
end of the line, finds no number there, and leaves 50. -/
theorem weighted_total_scope_counterexample :
    claimC2WeightedTotal "7 Weighted Total abc" = 7
    ∧ (extract_scores "7 Weighted Total abc").weighted_total = 50 :=
  ⟨rfl, rfl⟩

end ViralOrFail
